import Mathlib

/-!
Verification of the simpleprompt line editor (`SimplePrompt.hpp`).

The embedding models the line-editing state of `getInputString` and friends:
the line buffer `toReturn` is a `List Int` of byte codes (the C++ code stores
raw `char`s and switches on `static_cast<int>(c)`), the cursor `cursorPos` is
an `Int` (it is an `int` in the source), the history deque `m_history` is a
`List (List Int)` with the oldest entry first (`push_back` appends at the
end), and the reverse iterator `m_prev` is the natural number distance of the
iterator from `m_history.rbegin()` (so `m_prev = 0` is the newest entry and
`m_prev = entries.length` corresponds to `rend()`).  Terminal escape output is
ignored; calls to the `m_printer` callback are recorded explicitly because the
spec talks about them.
-/

namespace SimplePromptVerif

/-- Line buffer text: the byte codes held by the C++ `std::string toReturn`. -/
abbrev Text := List Int

/-- `handleCharInsert` (SimplePrompt.hpp:124-144): splice `ch` into `toReturn`
at `cursorPos` (via the `copy`/`remaining` substrings) and advance the
cursor.  For an empty buffer the source simply does `push_back`. -/
def handleCharInsert (cursorPos : Int) (ch : Int) (toReturn : Text) :
    Int × Text :=
  if toReturn = [] then
    (cursorPos + 1, [ch])
  else
    (cursorPos + 1,
      toReturn.take cursorPos.toNat ++ ch :: toReturn.drop cursorPos.toNat)

/-- `handleBackspace` (SimplePrompt.hpp:156-177): guarded on `cursorPos > 0`;
decrement the cursor and drop the character now under it
(`copy = [0, cursorPos) ++ [cursorPos+1, end)` after the decrement). -/
def handleBackspace (cursorPos : Int) (toReturn : Text) : Int × Text :=
  if cursorPos > 0 then
    (cursorPos - 1,
      toReturn.take (cursorPos - 1).toNat ++ toReturn.drop (cursorPos - 1).toNat.succ)
  else
    (cursorPos, toReturn)

/-- `handleCtrlA` (SimplePrompt.hpp:179-186): decrement `cursorPos` once per
iteration of a loop running `pos = cursorPos` times, so a nonpositive cursor
is left untouched and a positive one reaches 0. -/
def handleCtrlA (cursorPos : Int) : Int :=
  if cursorPos > 0 then 0 else cursorPos

/-- `handleCtrlE` (SimplePrompt.hpp:188-196): `handleCtrlA` followed by one
increment per character of `in`. -/
def handleCtrlE (cursorPos : Int) (len : Nat) : Int :=
  handleCtrlA cursorPos + len

/-- `handleCtrlK` (SimplePrompt.hpp:198-213): keep `[0, cursorPos)` and swap
it into `in`; the cursor is not moved. -/
def handleCtrlK (cursorPos : Int) (toReturn : Text) : Text :=
  toReturn.take cursorPos.toNat

/-- `handleLeftArrow` (SimplePrompt.hpp:215-223): guarded decrement. -/
def handleLeftArrow (cursorPos : Int) : Int :=
  if cursorPos > 0 then cursorPos - 1 else cursorPos

/-- `handleRightArrow` (SimplePrompt.hpp:225-235): guarded increment. -/
def handleRightArrow (cursorPos : Int) (toReturn : Text) : Int :=
  if cursorPos < toReturn.length then cursorPos + 1 else cursorPos

/-- `tabCompleteCommand` (SimplePrompt.hpp:238-250): scan `m_commands` in
registration order and return the first entry whose prefix truncated to
`command.length()` (`it.substr(0, command.length())`, which clamps like
`List.take`) equals `command`; otherwise return `command` unchanged. -/
def tabCompleteCommand (commands : List Text) (command : Text) : Text :=
  match commands with
  | [] => command
  | it :: rest =>
    if it.take command.length = command then it
    else tabCompleteCommand rest command

/-- `handleTabKey` (SimplePrompt.hpp:253-273): early-return on an empty
buffer; otherwise replace the buffer by `tabCompleteCommand` of it and set the
cursor to the new length. -/
def handleTabKey (commands : List Text) (cursorPos : Int) (toReturn : Text) :
    Int × Text :=
  if toReturn = [] then
    (cursorPos, toReturn)
  else
    ((tabCompleteCommand commands toReturn).length,
      tabCompleteCommand commands toReturn)

/-- The history state of a `SimplePrompt` object: `entries` is `m_history`
oldest-first (deque `push_back` order); `prev` is the distance of the reverse
iterator `m_prev` from `m_history.rbegin()`, so `prev = 0` designates the
newest entry and `prev = entries.length` corresponds to `rend()`. -/
structure HistoryState where
  entries : List Text
  prev : Nat
deriving DecidableEq, Repr

/-- `*m_prev` when `m_prev` sits at distance `i` from `rbegin()`: the
`i`-th newest entry, i.e. `entries[length - 1 - i]`. -/
def revGet (entries : List Text) (i : Nat) : Text :=
  entries.getD (entries.length - 1 - i) []

/-- `handleHistory` (SimplePrompt.hpp:276-324).  Up branch: if `m_prev` is not
`rend()`, show `*m_prev` (buffer replaced, cursor to its length) and advance
`m_prev` toward older entries unless it already is at `rend()-1`.  Down
branch: if `m_prev` is not `rbegin()`, step it toward newer entries, show the
entry there, and if it has just reached `rbegin()` bump it one step back
toward older entries. -/
def handleHistory (hist : HistoryState) (cursorPos : Int) (toReturn : Text)
    (up : Bool) : HistoryState × Int × Text :=
  if hist.entries = [] then
    (hist, cursorPos, toReturn)
  else
    if up then
      if hist.prev ≠ hist.entries.length then
        (⟨hist.entries,
            if hist.prev < hist.entries.length - 1 then hist.prev + 1
            else hist.prev⟩,
          ((revGet hist.entries hist.prev).length : Int),
          revGet hist.entries hist.prev)
      else
        (hist, cursorPos, toReturn)
    else
      if hist.prev ≠ 0 then
        (⟨hist.entries,
            if hist.prev - 1 = 0 then hist.prev - 1 + 1 else hist.prev - 1⟩,
          ((revGet hist.entries (hist.prev - 1)).length : Int),
          revGet hist.entries (hist.prev - 1))
      else
        (hist, cursorPos, toReturn)

/-- `checkArrowCode` (SimplePrompt.hpp:327-337), reading its extra bytes from
`stream` starting at position `pos` (the position just after the byte
`code`): on 27 it consumes one byte; if that byte is 91 it consumes a second
one and yields it, else it yields -1; on any other `code` it consumes nothing
and yields -1.  Returns the yielded code and the new stream position. -/
def checkArrowCode (stream : Nat → Int) (pos : Nat) (code : Int) :
    Int × Nat :=
  if code = 27 then
    if stream pos = 91 then (stream (pos + 1), pos + 2)
    else (-1, pos + 1)
  else
    (-1, pos)

/-- One `getInputString` iteration's mutable state: the buffer, the cursor,
the history members, and the current read position in the input stream. -/
structure LoopState where
  toReturn : Text
  cursorPos : Int
  hist : HistoryState
  pos : Nat
deriving DecidableEq, Repr

/-- Apply `handleLeftArrow` `n` times (the `for(int i = 0; i < remCursorPos;
++i) handleLeftArrow(cursorPos);` loop at SimplePrompt.hpp:399-401). -/
def iterateLeft : Nat → Int → Int
  | 0, c => c
  | n + 1, c => iterateLeft n (handleLeftArrow c)

/-- Outcome of one iteration of the `while(1)` loop in `getInputString`
(SimplePrompt.hpp:347-409).  `cont` carries the new state and the arguments of
the `m_printer` calls made during the iteration; `done` is the `SP_ENTER`
break; `exited` is the `SP_CTRL_C` branch, which calls `exit(0)`.
`exit` terminates the process without running destructors of automatic-storage
objects, so `~SimplePrompt` — and with it the `tcsetattr(STDIN_FILENO,
TCSANOW, &m_oldt)` restore — does not run on that path; the Bool records
whether the saved terminal mode was restored before termination (it is
`false`). -/
inductive StepOut where
  | cont (st : LoopState) (printed : List Text)
  | done (st : LoopState) (printed : List Text)
  | exited (terminalRestored : Bool)
deriving DecidableEq, Repr

/-- One iteration of the `getInputString` loop (SimplePrompt.hpp:347-409):
read the byte at `st.pos`, dispatch on it exactly as the `switch` does, and
report the updated state.  In the printable default branch the source inserts
the character, computes `remCursorPos = toReturn.length() - cursorPos`, runs
`handleCtrlE`, calls `m_printer(toReturn)`, and then applies `handleLeftArrow`
`remCursorPos` times. -/
def stepInput (commands : List Text) (stream : Nat → Int) (st : LoopState) :
    StepOut :=
  let c := stream st.pos
  let pos := st.pos + 1
  if c = 10 then
    .done ⟨st.toReturn, st.cursorPos, st.hist, pos⟩ []
  else if c = 3 then
    .exited false
  else if c = 1 then
    .cont ⟨st.toReturn, handleCtrlA st.cursorPos, st.hist, pos⟩ []
  else if c = 5 then
    .cont ⟨st.toReturn, handleCtrlE st.cursorPos st.toReturn.length, st.hist,
      pos⟩ []
  else if c = 11 then
    .cont ⟨handleCtrlK st.cursorPos st.toReturn, st.cursorPos, st.hist, pos⟩ []
  else if c = 127 ∨ c = 8 then
    .cont ⟨(handleBackspace st.cursorPos st.toReturn).2,
      (handleBackspace st.cursorPos st.toReturn).1, st.hist, pos⟩ []
  else if c = 9 then
    .cont ⟨(handleTabKey commands st.cursorPos st.toReturn).2,
      (handleTabKey commands st.cursorPos st.toReturn).1, st.hist, pos⟩ []
  else
    let ac := (checkArrowCode stream pos c).1
    let pos2 := (checkArrowCode stream pos c).2
    if ac = 65 then
      .cont ⟨(handleHistory st.hist st.cursorPos st.toReturn true).2.2,
        (handleHistory st.hist st.cursorPos st.toReturn true).2.1,
        (handleHistory st.hist st.cursorPos st.toReturn true).1, pos2⟩ []
    else if ac = 66 then
      .cont ⟨(handleHistory st.hist st.cursorPos st.toReturn false).2.2,
        (handleHistory st.hist st.cursorPos st.toReturn false).2.1,
        (handleHistory st.hist st.cursorPos st.toReturn false).1, pos2⟩ []
    else if ac = 68 then
      .cont ⟨st.toReturn, handleLeftArrow st.cursorPos, st.hist, pos2⟩ []
    else if ac = 67 then
      .cont ⟨st.toReturn, handleRightArrow st.cursorPos st.toReturn, st.hist,
        pos2⟩ []
    else if ac > -1 then
      .cont ⟨st.toReturn, st.cursorPos, st.hist, pos2⟩ []
    else if c > 28 then
      let inserted := handleCharInsert st.cursorPos c st.toReturn
      let remCursorPos := (inserted.2.length : Int) - inserted.1
      .cont ⟨inserted.2,
        iterateLeft remCursorPos.toNat (handleCtrlE inserted.1 inserted.2.length),
        st.hist, pos2⟩ [inserted.2]
    else
      .cont ⟨st.toReturn, st.cursorPos, st.hist, pos2⟩ []

/-- The body of `loop` (SimplePrompt.hpp:414-427) after `getInputString`
returns `commandStr`: when non-empty, invoke `m_comCallback` (if one is set),
`push_back` onto `m_history`, and reset `m_prev` to `rbegin()`.  Returns the
new history state and the list of callback invocations. -/
def finalizeLine (hist : HistoryState) (commandStr : Text)
    (callbackSet : Bool) : HistoryState × List Text :=
  if commandStr = [] then
    (hist, [])
  else
    (⟨hist.entries ++ [commandStr], 0⟩,
      if callbackSet then [commandStr] else [])

/-- Run `n` iterations of the `getInputString` loop; the state freezes once
the cycle finishes (Enter) or the process exits (Ctrl-C). -/
def runN (commands : List Text) (stream : Nat → Int) :
    Nat → LoopState → LoopState
  | 0, st => st
  | n + 1, st =>
    match stepInput commands stream st with
    | .cont st' _ => runN commands stream n st'
    | .done st' _ => st'
    | .exited _ => st

/-- The printer invocations of one loop iteration. -/
def StepOut.printed : StepOut → List Text
  | .cont _ p => p
  | .done _ p => p
  | .exited _ => []

/-- The buffer text after one loop iteration, when the process is still
alive. -/
def StepOut.bufferText : StepOut → Option Text
  | .cont st _ => some st.toReturn
  | .done st _ => some st.toReturn
  | .exited _ => none

/-- The cursor invariant of the spec's LineBuffer data model. -/
abbrev CursorInv (st : LoopState) : Prop :=
  0 ≤ st.cursorPos ∧ st.cursorPos ≤ st.toReturn.length

/-- The history state after finalizing the lines `"a"`, `"b"`, `"c"` (byte
codes 97, 98, 99) in order, starting from an empty session. -/
def abcHistory : HistoryState :=
  (finalizeLine (finalizeLine (finalizeLine ⟨[], 0⟩ [97] true).1 [98] true).1
    [99] true).1

/-- First ArrowUp after finalizing `"a"`, `"b"`, `"c"`. -/
def abcStep1 : HistoryState × Int × Text := handleHistory abcHistory 0 [] true

/-- Second consecutive ArrowUp. -/
def abcStep2 : HistoryState × Int × Text :=
  handleHistory abcStep1.1 abcStep1.2.1 abcStep1.2.2 true

/-- Third consecutive ArrowUp. -/
def abcStep3 : HistoryState × Int × Text :=
  handleHistory abcStep2.1 abcStep2.2.1 abcStep2.2.2 true

/-- Fourth consecutive ArrowUp (already at the oldest entry). -/
def abcStep4 : HistoryState × Int × Text :=
  handleHistory abcStep3.1 abcStep3.2.1 abcStep3.2.2 true

/-- Subsequent ArrowDown. -/
def abcStep5 : HistoryState × Int × Text :=
  handleHistory abcStep4.1 abcStep4.2.1 abcStep4.2.2 false

/-! ### Helper lemmas -/

theorem tabCompleteCommand_eq_find (commands : List Text) (t : Text) :
    tabCompleteCommand commands t =
      (commands.find? fun e => decide (e.take t.length = t)).getD t := by
  induction commands with
  | nil => rfl
  | cons it rest ih =>
    by_cases h : it.take t.length = t
    · simp [tabCompleteCommand, List.find?, h]
    · simp [tabCompleteCommand, List.find?, h, ih]

theorem iterateLeft_bounds (n : Nat) (c : Int) (h : 0 ≤ c) :
    0 ≤ iterateLeft n c ∧ iterateLeft n c ≤ c := by
  induction n generalizing c with
  | zero => exact ⟨h, le_refl c⟩
  | succ m ih =>
    unfold iterateLeft handleLeftArrow
    by_cases hc : c > 0
    · simp only [hc, if_true]
      obtain ⟨h1, h2⟩ := ih (c - 1) (by omega)
      exact ⟨h1, by omega⟩
    · simp only [hc, if_false]
      exact ih c h

/-! ### Claim C3: character insertion -/

/-- C3: inserting a character `ch` at cursor `c` with `0 ≤ c ≤ n` (`n` the
buffer length) yields a buffer of length `n + 1` whose character at offset
`c` is `ch`, the cursor at `c + 1`, and the remaining characters in their
original relative order (the prefix before `c` and the suffix after `c` are
preserved verbatim). -/
theorem insert_spec (c : Int) (ch : Int) (t : Text)
    (h0 : 0 ≤ c) (h1 : c ≤ t.length) :
    (handleCharInsert c ch t).1 = c + 1 ∧
    (handleCharInsert c ch t).2.length = t.length + 1 ∧
    (handleCharInsert c ch t).2[c.toNat]? = some ch ∧
    (handleCharInsert c ch t).2.take c.toNat = t.take c.toNat ∧
    (handleCharInsert c ch t).2.drop (c.toNat + 1) = t.drop c.toNat := by
  have hc : c.toNat ≤ t.length := by omega
  unfold handleCharInsert
  by_cases ht : t = []
  · subst ht
    have : c = 0 := by simp at h1; omega
    subst this
    simp
  · simp only [ht, if_false]
    have hlen : (t.take c.toNat).length = c.toNat := by
      simp [Nat.min_eq_left hc]
    refine ⟨trivial, ?_, ?_, ?_, ?_⟩
    · simp
      omega
    · rw [List.getElem?_append_right (by omega)]
      simp [hlen]
    · exact List.take_left' hlen
    · rw [List.append_cons, List.drop_left' (by simp [hlen])]

/-- Witness for `insert_spec`: inserting byte 120 at cursor 1 of the
two-byte buffer `[97, 98]`. -/
theorem insert_spec_witness :
    (0 : Int) ≤ 1 ∧ (1 : Int) ≤ ([97, 98] : Text).length ∧
    ((handleCharInsert 1 120 [97, 98]).1 = 2 ∧
      (handleCharInsert 1 120 [97, 98]).2.length = 3 ∧
      (handleCharInsert 1 120 [97, 98]).2[(1 : Int).toNat]? = some 120 ∧
      (handleCharInsert 1 120 [97, 98]).2.take (1 : Int).toNat =
        ([97, 98] : Text).take (1 : Int).toNat ∧
      (handleCharInsert 1 120 [97, 98]).2.drop ((1 : Int).toNat + 1) =
        ([97, 98] : Text).drop (1 : Int).toNat) :=
  ⟨by decide, by decide, insert_spec 1 120 [97, 98] (by decide) (by decide)⟩

/-! ### Claim C5: tab-completion resolution -/

/-- C5: the tab-resolution of the current text (the buffer component produced
by `handleTabKey`) is the unchanged text when it is empty, and otherwise the
first command in registration order whose prefix of length
`currentText.length` equals the current text, defaulting to the unchanged
text when no command matches. -/
theorem tab_resolution (commands : List Text) (cursorPos : Int) (t : Text) :
    (t = [] → (handleTabKey commands cursorPos t).2 = t) ∧
    (t ≠ [] → (handleTabKey commands cursorPos t).2 =
      (commands.find? fun e => decide (e.take t.length = t)).getD t) := by
  constructor
  · intro h
    simp [handleTabKey, h]
  · intro h
    simp [handleTabKey, h, tabCompleteCommand_eq_find]

/-- Witness for `tab_resolution`: with commands `["remove", "mkdir"]` and
text `"re"`, the resolved text is `"remove"` (byte codes). -/
theorem tab_resolution_witness :
    ([114, 101] : Text) ≠ [] ∧
    (handleTabKey [[114, 101, 109, 111, 118, 101], [109, 107, 100, 105, 114]]
        1 [114, 101]).2 = [114, 101, 109, 111, 118, 101] := by
  refine ⟨by decide, ?_⟩
  rw [(tab_resolution [[114, 101, 109, 111, 118, 101], [109, 107, 100, 105, 114]]
    1 [114, 101]).2 (by decide)]
  decide

/-! ### Claim C10: tab always moves the cursor to the end -/

/-- C10: a Tab event on a non-empty buffer always leaves the cursor at the
length of the resulting buffer, and when no registered command matches the
buffer text is returned unchanged — so a no-match Tab still moves the cursor
to the end of the line. -/
theorem tab_moves_cursor_to_end (commands : List Text) (cursorPos : Int)
    (t : Text) (h : t ≠ []) :
    (handleTabKey commands cursorPos t).1 =
      ((handleTabKey commands cursorPos t).2.length : Int) ∧
    (tabCompleteCommand commands t = t →
      (handleTabKey commands cursorPos t).2 = t) := by
  constructor
  · simp [handleTabKey, h]
  · intro hm
    simp [handleTabKey, h, hm]

/-- Witness for `tab_moves_cursor_to_end`: text `"zz"` with cursor 1 and no
matching command keeps the text but moves the cursor to 2. -/
theorem tab_moves_cursor_to_end_witness :
    ([122, 122] : Text) ≠ [] ∧
    ((handleTabKey [[109, 107, 100, 105, 114]] 1 [122, 122]).1 =
        (((handleTabKey [[109, 107, 100, 105, 114]] 1 [122, 122]).2.length : Nat) : Int) ∧
      (tabCompleteCommand [[109, 107, 100, 105, 114]] [122, 122] = [122, 122] →
        (handleTabKey [[109, 107, 100, 105, 114]] 1 [122, 122]).2 = [122, 122])) :=
  ⟨by decide, tab_moves_cursor_to_end [[109, 107, 100, 105, 114]] 1 [122, 122]
    (by decide)⟩

/-! ### Claim C6: line finalization -/

/-- C6: with a command callback configured, finalizing a non-empty line
invokes the callback with exactly that line, appends it to the history
entries and resets the navigation cursor to the most-recent (idle) position,
whereas finalizing an empty line invokes nothing and leaves the history state
untouched. -/
theorem enter_finalize_spec (hist : HistoryState) (s : Text) :
    (s ≠ [] →
      finalizeLine hist s true = (⟨hist.entries ++ [s], 0⟩, [s])) ∧
    (s = [] → finalizeLine hist s true = (hist, [])) := by
  constructor
  · intro h
    simp [finalizeLine, h]
  · intro h
    simp [finalizeLine, h]

/-- Witness for `enter_finalize_spec` at the non-empty line `[97]` and at the
empty line. -/
theorem enter_finalize_spec_witness :
    (([97] : Text) ≠ [] ∧
      finalizeLine ⟨[], 0⟩ [97] true = (⟨[[97]], 0⟩, [[97]])) ∧
    (([] : Text) = [] ∧ finalizeLine ⟨[[97]], 0⟩ [] true = (⟨[[97]], 0⟩, [])) :=
  ⟨⟨by decide, (enter_finalize_spec ⟨[], 0⟩ [97]).1 (by decide)⟩,
    ⟨rfl, (enter_finalize_spec ⟨[[97]], 0⟩ []).2 rfl⟩⟩

/-! ### Claim C2: interrupt path -/

/-- C2: when the next input byte is 3 (Ctrl-C), the loop iteration reaches
the `exit(0)` branch: the process terminates immediately, and because
`exit` does not run destructors of automatic-storage objects, the
`tcsetattr` restore in `~SimplePrompt` is skipped — the saved terminal mode
is NOT restored on this path, contradicting the claim. -/
theorem interrupt_exits_without_restore (commands : List Text)
    (stream : Nat → Int) (st : LoopState) (h : stream st.pos = 3) :
    stepInput commands stream st = .exited false := by
  simp [stepInput, h]

/-- Witness for `interrupt_exits_without_restore` on a stream that delivers
byte 3 immediately. -/
theorem interrupt_exits_without_restore_witness :
    (fun _ : Nat => (3 : Int)) 0 = 3 ∧
    stepInput [] (fun _ => 3) ⟨[], 0, ⟨[], 0⟩, 0⟩ = .exited false :=
  ⟨rfl, interrupt_exits_without_restore [] (fun _ => 3) ⟨[], 0, ⟨[], 0⟩, 0⟩ rfl⟩

/-! ### Claim C4: concrete history trace -/

/-- C4: after finalizing the lines `"a"`, `"b"`, `"c"` (bytes 97, 98, 99),
four consecutive ArrowUps show `"c"`, `"b"`, `"a"`, `"a"`, and a subsequent
ArrowDown shows `"b"`. -/
theorem history_abc_trace :
    abcStep1.2.2 = [99] ∧ abcStep2.2.2 = [98] ∧ abcStep3.2.2 = [97] ∧
      abcStep4.2.2 = [97] ∧ abcStep5.2.2 = [98] := by
  decide

/-! ### Claim C1: ArrowDown navigation -/

/-- C1 counterexample: finalize `"a"` then `"b"`, press ArrowUp (shows
`"b"`), then ArrowDown.  The ArrowDown shows the newest entry (`"b"`), but
the navigation cursor is left at distance 1 from `rbegin()` rather than the
idle (post-finalization) position 0, so the next ArrowUp shows `"a"` — not
the most recent entry `"b"` as the claim requires. -/
theorem history_down_reset_counterexample :
    let g2 := (finalizeLine (finalizeLine ⟨[], 0⟩ [97] true).1 [98] true).1
    let t1 := handleHistory g2 0 [] true
    let t2 := handleHistory t1.1 t1.2.1 t1.2.2 false
    let t3 := handleHistory t2.1 t2.2.1 t2.2.2 true
    t2.2.2 = revGet t2.1.entries 0 ∧
      t2.1.prev = 1 ∧
      (finalizeLine ⟨[], 0⟩ [97] true).1.prev = 0 ∧
      t3.2.2 = [97] ∧
      revGet t2.1.entries 0 = [98] ∧
      ([97] : Text) ≠ [98] := by
  decide

/-- C1 amended: when entries are non-empty and the navigation cursor is not
at the newest position (`prev ≠ 0`), ArrowDown steps the cursor one step
toward newer entries and shows the entry at the new position; but when it
thereby steps back to the newest entry, the cursor is set to 1 (pointing at
the second-newest entry), not to the idle position 0, so the next ArrowUp
shows the second most recent entry instead of the most recent one. -/
theorem history_down_amended (hist : HistoryState) (c : Int) (t : Text)
    (hne : hist.entries ≠ []) (hp : hist.prev ≠ 0) :
    (handleHistory hist c t false).2.2 = revGet hist.entries (hist.prev - 1) ∧
    (handleHistory hist c t false).2.1 =
      ((revGet hist.entries (hist.prev - 1)).length : Int) ∧
    (handleHistory hist c t false).1.entries = hist.entries ∧
    (handleHistory hist c t false).1.prev =
      (if hist.prev - 1 = 0 then 1 else hist.prev - 1) ∧
    (hist.prev - 1 = 0 →
      (handleHistory (handleHistory hist c t false).1
          (handleHistory hist c t false).2.1
          (handleHistory hist c t false).2.2 true).2.2 =
        revGet hist.entries 1) := by
  have key : handleHistory hist c t false =
      (⟨hist.entries, if hist.prev - 1 = 0 then hist.prev - 1 + 1
          else hist.prev - 1⟩,
        ((revGet hist.entries (hist.prev - 1)).length : Int),
        revGet hist.entries (hist.prev - 1)) := by
    unfold handleHistory
    simp [hne, hp]
  rw [key]
  refine ⟨rfl, rfl, rfl, by dsimp only; split <;> omega, ?_⟩
  intro h0
  have hp1 : hist.prev = 1 := by omega
  rw [hp1]
  norm_num
  unfold handleHistory
  rw [if_neg hne, if_pos rfl]
  by_cases hlen : (1 : Nat) = hist.entries.length
  · rw [if_neg (by omega : ¬((1 : Nat) ≠ hist.entries.length))]
    unfold revGet
    rw [(by omega :
      hist.entries.length - 1 - 0 = hist.entries.length - 1 - 1)]
  · rw [if_pos (by omega : (1 : Nat) ≠ hist.entries.length)]

/-- Witness for `history_down_amended` at the two-entry history
`["a", "b"]` with the cursor at distance 1. -/
theorem history_down_amended_witness :
    (⟨[[97], [98]], 1⟩ : HistoryState).entries ≠ [] ∧
    (⟨[[97], [98]], 1⟩ : HistoryState).prev ≠ 0 ∧
    ((handleHistory ⟨[[97], [98]], 1⟩ 1 [98] false).2.2 =
        revGet [[97], [98]] 0 ∧
      (handleHistory ⟨[[97], [98]], 1⟩ 1 [98] false).1.prev = 1 ∧
      ((1 : Nat) - 1 = 0 →
        (handleHistory (handleHistory ⟨[[97], [98]], 1⟩ 1 [98] false).1
            (handleHistory ⟨[[97], [98]], 1⟩ 1 [98] false).2.1
            (handleHistory ⟨[[97], [98]], 1⟩ 1 [98] false).2.2 true).2.2 =
          revGet [[97], [98]] 1)) := by
  have h := history_down_amended ⟨[[97], [98]], 1⟩ 1 [98] (by decide) (by decide)
  exact ⟨by decide, by decide, h.1, by rw [h.2.2.2.1]; decide, h.2.2.2.2⟩

/-! ### Step-level helper lemmas -/

theorem stepInput_insert_eq (commands : List Text) (stream : Nat → Int)
    (st : LoopState) (hgt : 28 < stream st.pos) (h127 : stream st.pos ≠ 127) :
    stepInput commands stream st =
      .cont ⟨(handleCharInsert st.cursorPos (stream st.pos) st.toReturn).2,
        iterateLeft
          (((handleCharInsert st.cursorPos (stream st.pos) st.toReturn).2.length : Int)
              - (handleCharInsert st.cursorPos (stream st.pos) st.toReturn).1).toNat
          (handleCtrlE (handleCharInsert st.cursorPos (stream st.pos) st.toReturn).1
            (handleCharInsert st.cursorPos (stream st.pos) st.toReturn).2.length),
        st.hist, st.pos + 1⟩
      [(handleCharInsert st.cursorPos (stream st.pos) st.toReturn).2] := by
  have h27 : stream st.pos ≠ 27 := by omega
  simp only [stepInput, checkArrowCode, if_neg h27]
  rw [if_neg (by omega : ¬stream st.pos = 10),
    if_neg (by omega : ¬stream st.pos = 3),
    if_neg (by omega : ¬stream st.pos = 1),
    if_neg (by omega : ¬stream st.pos = 5),
    if_neg (by omega : ¬stream st.pos = 11),
    if_neg (by omega : ¬(stream st.pos = 127 ∨ stream st.pos = 8)),
    if_neg (by omega : ¬stream st.pos = 9)]
  norm_num
  first
    | exact hgt
    | rw [if_pos hgt]

theorem stepInput_low_drop (commands : List Text) (stream : Nat → Int)
    (st : LoopState) (hle : stream st.pos ≤ 28)
    (hni : stream st.pos ∉ ([10, 3, 1, 5, 11, 8, 9, 27] : List Int)) :
    stepInput commands stream st =
      .cont ⟨st.toReturn, st.cursorPos, st.hist, st.pos + 1⟩ [] := by
  simp only [List.mem_cons, List.not_mem_nil, or_false, not_or] at hni
  obtain ⟨n10, n3, n1, n5, n11, n8, n9, n27⟩ := hni
  simp only [stepInput, checkArrowCode, if_neg n27]
  rw [if_neg n10, if_neg n3, if_neg n1, if_neg n5, if_neg n11,
    if_neg (by omega : ¬(stream st.pos = 127 ∨ stream st.pos = 8)),
    if_neg n9]
  norm_num
  first
    | omega
    | rw [if_neg (by omega : ¬28 < stream st.pos)]

/-! ### Claim C7: printer invocations -/

/-- C7 counterexample: a Backspace event on the buffer `[97, 98]` (cursor at
the end) is an edit — it changes the buffer to `[97]` — yet the loop
iteration performs no printer invocation, so the printer does not receive the
live buffer contents after every edit. -/
theorem printer_backspace_counterexample :
    stepInput [] (fun _ => 127) ⟨[97, 98], 2, ⟨[], 0⟩, 0⟩ =
      .cont ⟨[97], 1, ⟨[], 0⟩, 1⟩ [] ∧
    ([97] : Text) ≠ [97, 98] := by
  constructor
  · decide
  · decide

/-- C7 amended: during one loop iteration the printer is invoked exactly
when the input byte is a printable character (code > 28 and not 127): it then
receives the post-insertion buffer once; deletions, tab completion, history
replacement and kill-to-end do not invoke the printer. -/
theorem printer_only_on_insert (commands : List Text) (stream : Nat → Int)
    (st : LoopState) :
    (stepInput commands stream st).printed =
      if 28 < stream st.pos ∧ stream st.pos ≠ 127 then
        [(handleCharInsert st.cursorPos (stream st.pos) st.toReturn).2]
      else [] := by
  by_cases hmain : 28 < stream st.pos ∧ stream st.pos ≠ 127
  · rw [if_pos hmain, stepInput_insert_eq commands stream st hmain.1 hmain.2]
    rfl
  · rw [if_neg hmain]
    push_neg at hmain
    by_cases h1 : stream st.pos = 10
    · simp only [stepInput, if_pos h1]
      rfl
    by_cases h2 : stream st.pos = 3
    · simp only [stepInput, if_neg h1, if_pos h2]
      rfl
    by_cases h3 : stream st.pos = 1
    · simp only [stepInput, if_neg h1, if_neg h2, if_pos h3]
      rfl
    by_cases h4 : stream st.pos = 5
    · simp only [stepInput, if_neg h1, if_neg h2, if_neg h3, if_pos h4]
      rfl
    by_cases h5 : stream st.pos = 11
    · simp only [stepInput, if_neg h1, if_neg h2, if_neg h3, if_neg h4,
        if_pos h5]
      rfl
    by_cases h6 : stream st.pos = 127 ∨ stream st.pos = 8
    · simp only [stepInput, if_neg h1, if_neg h2, if_neg h3, if_neg h4,
        if_neg h5, if_pos h6]
      rfl
    by_cases h7 : stream st.pos = 9
    · simp only [stepInput, if_neg h1, if_neg h2, if_neg h3, if_neg h4,
        if_neg h5, if_neg h6, if_pos h7]
      rfl
    have h28 : ¬(28 < stream st.pos) := by omega
    simp only [stepInput, if_neg h1, if_neg h2, if_neg h3, if_neg h4,
      if_neg h5, if_neg h6, if_neg h7]
    split_ifs with a1 a2 a3 a4 a5 a6 <;>
      first
        | rfl
        | (exfalso; omega)

/-! ### Claim C8: input byte classification -/

/-- C8: any input byte with code > 28 other than 127 (the only enumerated
control code above 28) is treated as printable — the iteration's resulting
buffer is the character-insertion of that byte; and any byte with code ≤ 28
that is not one of the explicitly handled codes 10, 3, 1, 5, 11, 8, 9, 27 is
silently dropped: the buffer, cursor and history are unchanged and only the
read position advances. -/
theorem byte_classification (commands : List Text) (stream : Nat → Int)
    (st : LoopState) :
    (28 < stream st.pos → stream st.pos ≠ 127 →
      (stepInput commands stream st).bufferText =
        some (handleCharInsert st.cursorPos (stream st.pos) st.toReturn).2) ∧
    (stream st.pos ≤ 28 →
      stream st.pos ∉ ([10, 3, 1, 5, 11, 8, 9, 27] : List Int) →
      stepInput commands stream st =
        .cont ⟨st.toReturn, st.cursorPos, st.hist, st.pos + 1⟩ []) := by
  constructor
  · intro hgt h127
    rw [stepInput_insert_eq commands stream st hgt h127]
    rfl
  · intro hle hni
    exact stepInput_low_drop commands stream st hle hni

/-- Witness for `byte_classification`: byte 65 on an empty buffer is
inserted; byte 4 on the buffer `[97]` is dropped with no state change. -/
theorem byte_classification_witness :
    ((28 : Int) < 65 ∧ (65 : Int) ≠ 127 ∧
      (stepInput [] (fun _ => 65) ⟨[], 0, ⟨[], 0⟩, 0⟩).bufferText =
        some (handleCharInsert 0 65 []).2) ∧
    ((4 : Int) ≤ 28 ∧ (4 : Int) ∉ ([10, 3, 1, 5, 11, 8, 9, 27] : List Int) ∧
      stepInput [] (fun _ => 4) ⟨[97], 1, ⟨[], 0⟩, 0⟩ =
        .cont ⟨[97], 1, ⟨[], 0⟩, 1⟩ []) :=
  ⟨⟨by decide, by decide,
      (byte_classification [] (fun _ => 65) ⟨[], 0, ⟨[], 0⟩, 0⟩).1
        (by decide) (by decide)⟩,
    ⟨by decide, by decide,
      (byte_classification [] (fun _ => 4) ⟨[97], 1, ⟨[], 0⟩, 0⟩).2
        (by decide) (by decide)⟩⟩

/-! ### Claim C9: cursor invariant -/

theorem handleCharInsert_fst (c ch : Int) (t : Text) :
    (handleCharInsert c ch t).1 = c + 1 := by
  unfold handleCharInsert
  split <;> rfl

theorem handleBackspace_inv (c : Int) (t : Text) (h0 : 0 ≤ c)
    (h1 : c ≤ t.length) :
    0 ≤ (handleBackspace c t).1 ∧
      (handleBackspace c t).1 ≤ ((handleBackspace c t).2.length : Int) := by
  unfold handleBackspace
  split_ifs with hc
  · constructor
    · simp
      omega
    · simp only [List.length_append, List.length_take, List.length_drop]
      push_cast
      omega
  · exact ⟨h0, h1⟩

theorem handleTabKey_inv (commands : List Text) (c : Int) (t : Text)
    (h0 : 0 ≤ c) (h1 : c ≤ t.length) :
    0 ≤ (handleTabKey commands c t).1 ∧
      (handleTabKey commands c t).1 ≤
        ((handleTabKey commands c t).2.length : Int) := by
  unfold handleTabKey
  split_ifs
  · exact ⟨h0, h1⟩
  · constructor <;> simp

theorem handleHistory_inv (hist : HistoryState) (c : Int) (t : Text)
    (b : Bool) (h0 : 0 ≤ c) (h1 : c ≤ t.length) :
    0 ≤ (handleHistory hist c t b).2.1 ∧
      (handleHistory hist c t b).2.1 ≤
        ((handleHistory hist c t b).2.2.length : Int) := by
  unfold handleHistory
  split_ifs <;> first | exact ⟨h0, h1⟩ | (constructor <;> simp)

theorem stepInput_preserves (commands : List Text) (stream : Nat → Int)
    (st : LoopState) (h : CursorInv st) :
    match stepInput commands stream st with
    | .cont st' _ => CursorInv st'
    | .done st' _ => CursorInv st'
    | .exited _ => True := by
  obtain ⟨ha, hb⟩ := h
  by_cases h1 : stream st.pos = 10
  · simp only [stepInput, if_pos h1]
    exact ⟨ha, hb⟩
  by_cases h2 : stream st.pos = 3
  · simp only [stepInput, if_neg h1, if_pos h2]
  by_cases h3 : stream st.pos = 1
  · simp only [stepInput, if_neg h1, if_neg h2, if_pos h3]
    refine ⟨?_, ?_⟩ <;> simp only [handleCtrlA] <;> split_ifs <;> omega
  by_cases h4 : stream st.pos = 5
  · simp only [stepInput, if_neg h1, if_neg h2, if_neg h3, if_pos h4]
    refine ⟨?_, ?_⟩ <;> simp only [handleCtrlE, handleCtrlA] <;>
      split_ifs <;> omega
  by_cases h5 : stream st.pos = 11
  · simp only [stepInput, if_neg h1, if_neg h2, if_neg h3, if_neg h4,
      if_pos h5]
    refine ⟨ha, ?_⟩
    simp only [handleCtrlK, List.length_take]
    push_cast
    omega
  by_cases h6 : stream st.pos = 127 ∨ stream st.pos = 8
  · simp only [stepInput, if_neg h1, if_neg h2, if_neg h3, if_neg h4,
      if_neg h5, if_pos h6]
    exact handleBackspace_inv st.cursorPos st.toReturn ha hb
  by_cases h7 : stream st.pos = 9
  · simp only [stepInput, if_neg h1, if_neg h2, if_neg h3, if_neg h4,
      if_neg h5, if_neg h6, if_pos h7]
    exact handleTabKey_inv commands st.cursorPos st.toReturn ha hb
  simp only [stepInput, if_neg h1, if_neg h2, if_neg h3, if_neg h4,
    if_neg h5, if_neg h6, if_neg h7]
  split_ifs with a1 a2 a3 a4 a5 a6
  · exact handleHistory_inv st.hist st.cursorPos st.toReturn true ha hb
  · exact handleHistory_inv st.hist st.cursorPos st.toReturn false ha hb
  · refine ⟨?_, ?_⟩ <;> simp only [handleLeftArrow] <;> split_ifs <;> omega
  · refine ⟨?_, ?_⟩ <;> simp only [handleRightArrow] <;> split_ifs <;> omega
  · exact ⟨ha, hb⟩
  · have hE : handleCtrlE
        (handleCharInsert st.cursorPos (stream st.pos) st.toReturn).1
        (handleCharInsert st.cursorPos (stream st.pos) st.toReturn).2.length =
        ((handleCharInsert st.cursorPos (stream st.pos) st.toReturn).2.length : Int) := by
      rw [handleCharInsert_fst]
      simp only [handleCtrlE, handleCtrlA]
      split_ifs <;> omega
    rw [hE]
    have hbnd := iterateLeft_bounds
      ((((handleCharInsert st.cursorPos (stream st.pos) st.toReturn).2.length : Int)
          - (handleCharInsert st.cursorPos (stream st.pos) st.toReturn).1).toNat)
      ((handleCharInsert st.cursorPos (stream st.pos) st.toReturn).2.length : Int)
      (by positivity)
    exact ⟨hbnd.1, hbnd.2⟩
  · exact ⟨ha, hb⟩

/-- C9: the line-buffer cursor invariant `0 ≤ cursor ≤ len(text)` holds after
every loop iteration of one input cycle: starting from any state satisfying
it (in particular the initial empty buffer with cursor 0), any number of
iterations of the `getInputString` loop — inserts, backspaces, arrows, home,
end, kill-to-end, tab completion, history replacement — preserves it, every
out-of-range move being a guarded no-op. -/
theorem cursor_invariant_run (commands : List Text) (stream : Nat → Int)
    (n : Nat) (st : LoopState) (h : CursorInv st) :
    CursorInv (runN commands stream n st) := by
  induction n generalizing st with
  | zero => exact h
  | succ m ih =>
    have hp := stepInput_preserves commands stream st h
    unfold runN
    cases heq : stepInput commands stream st with
    | cont st' p =>
      rw [heq] at hp
      exact ih st' hp
    | done st' p =>
      rw [heq] at hp
      exact hp
    | exited b => exact h

/-- Witness for `cursor_invariant_run`: three iterations on the stream that
repeatedly delivers byte 104 (`h`), starting from the empty buffer. -/
theorem cursor_invariant_run_witness :
    CursorInv ⟨[], 0, ⟨[], 0⟩, 0⟩ ∧
    CursorInv (runN [] (fun _ => 104) 3 ⟨[], 0, ⟨[], 0⟩, 0⟩) :=
  ⟨by constructor <;> decide,
    cursor_invariant_run [] (fun _ => 104) 3 ⟨[], 0, ⟨[], 0⟩, 0⟩
      (by constructor <;> decide)⟩

end SimplePromptVerif
